import Mathlib

/-!
A shallow embedding, in Lean 4, of the Session Controller and Action
Resolution Pipeline of `src/session_manager.js` (class `SessionManager`),
together with proofs about the spec's claims on it.

Conventions of the embedding:
* JavaScript numbers used as millisecond timestamps, durations and scores
  are embedded as `Int` (all arithmetic on them in the source is integral);
  the two places the source uses `Math.random()` draws are embedded by an
  explicit oracle `ℚ`-draw supplied as an argument.
* JavaScript strings are Lean `String`s; `text.includes(sub)` is
  `jsIncludes`, `text.toLowerCase()` is `lowerStr` (ASCII case folding, as
  `Char.toLower`), `s.split(' ')` is `splitOnChar ' '`, string `.length`
  is the character count.
* `null`/`undefined`-able fields are `Option`; JavaScript truthiness on a
  string is "`some` and non-empty"; a `Set` of strings is a duplicate-free
  `List String` maintained by `setAdd`.
* Platform primitives that are not code of this repository are abstracted
  as function parameters: `JSON.parse` (a `String → Option Json`, `none`
  standing for a thrown exception), `new URL(url).hostname`
  (a `String → Option String`, `none` standing for a thrown exception),
  and the HTTP round trip to the generative backend (the response text, or
  `none` for a network/timeout error or missing content).  Every theorem
  quantifies over these parameters, so it holds for any behaviour of the
  platform.
* Async methods have no concurrency visible to this core (single page,
  strictly sequential awaits), so they are embedded as pure state-passing
  functions `input → result × SessionState`.
-/

namespace SessionManager

/-! ## JavaScript string and number primitives -/

/-- `sub` occurs in `s` (JavaScript `s.includes(sub)`); the empty string
occurs in everything. -/
def jsIncludes (s sub : String) : Bool :=
  decide (List.IsInfix sub.toList s.toList)

/-- ASCII lower-casing, the embedding of `s.toLowerCase()`. -/
def lowerStr (s : String) : String :=
  String.mk (s.toList.map Char.toLower)

/-- Split on a single separator character, the embedding of
`s.split(sep)`: `"".split(' ') = [""]`, separators at the ends produce
empty pieces. -/
def splitOnChar (sep : Char) : List Char → List (List Char)
  | [] => [[]]
  | c :: cs =>
    let r := splitOnChar sep cs
    if c = sep then [] :: r
    else
      match r with
      | h :: t => (c :: h) :: t
      | [] => [[c]]

/-- Whitespace for the source's `\s` regex class (ASCII part plus NBSP). -/
def isJsWs (c : Char) : Bool :=
  c = ' ' ∨ c = '\t' ∨ c = '\n' ∨ c = '\r' ∨ c = '\x0b' ∨ c = '\x0c' ∨ c.toNat = 0xa0

/-- JavaScript `parseInt` on a string: optional leading whitespace and
sign, then a non-empty digit run; `none` is `NaN`. -/
def jsParseInt (s : String) : Option Int :=
  let cs := s.toList.dropWhile isJsWs
  let (neg, cs) : Bool × List Char :=
    match cs with
    | '-' :: rest => (true, rest)
    | '+' :: rest => (false, rest)
    | _ => (false, cs)
  let digits := cs.takeWhile Char.isDigit
  if digits.isEmpty then none
  else
    let n : Nat := digits.foldl (fun acc c => 10 * acc + (c.toNat - '0'.toNat)) 0
    some (if neg then -(n : Int) else (n : Int))

/-- `a || b` for a possibly-missing string `a` (empty string is falsy). -/
def jsOrStr (a : Option String) (b : String) : String :=
  match a with
  | some s => if s = "" then b else s
  | none => b

/-- Truthiness of a possibly-missing string. -/
def jsTruthyStr (a : Option String) : Bool :=
  match a with
  | some s => s ≠ ""
  | none => false

/-- `Set.add`: append unless already present (the embedding of the
`failedElements` set of element texts). -/
def setAdd (s : List String) (x : String) : List String :=
  if s.contains x then s else s ++ [x]

/-- `Math.ceil(a / b)` on integers for positive `b`. -/
def jsCeilDiv (a b : Int) : Int :=
  -((-a).fdiv b)

/-! ## Data model -/

/-- One entry of `pageContent.interactiveElements` as produced by the page
scanner: visible text (≤100 chars), lower-case tag name, and the link
target for anchors. -/
structure InteractiveElement where
  text : String
  tag : String
  href : Option String
deriving Repr, DecidableEq

/-- The fields of a `ContentSnapshot` that the session manager reads.  The
`interactiveElements` field is an `Option` because the scanner's failure
snapshot at src/session_manager.js:288 can omit it on other branches of
the program; `_resolveActionParams` guards for that. -/
structure PageContent where
  isErrorPage : Bool
  hasCaptcha : Bool
  interactiveElements : Option (List InteractiveElement)
  hasVideo : Bool
  hasSearchBox : Bool
deriving Repr, DecidableEq

/-- The parameter bag of an abstract or concrete action.  JavaScript keeps
these as ad-hoc object fields; the embedding lists every field the session
manager reads or writes, each optional. -/
structure ActionParams where
  criteria : Option String := none
  intent : Option String := none
  keyword : Option String := none
  text : Option String := none
  iterations : Option Int := none
  duration : Option String := none
  limit : Option Int := none
deriving Repr, DecidableEq

/-- An action object `{ action, params }`, both abstract (skeleton) and
concrete (grounded) — the source uses one dynamic shape for both. -/
structure Action where
  action : String
  params : Option ActionParams := none
deriving Repr, DecidableEq

/-- One entry of `this.actionHistory` (`recordAction`). -/
structure HistoryEntry where
  action : String
  params : Option ActionParams
  status : String
  error : Option String
  url : Option String
  timestamp : Int
deriving Repr, DecidableEq

/-- `this.currentContext`. -/
structure CurrentContext where
  url : Option String
  pageType : String
  domain : Option String
deriving Repr, DecidableEq

/-- The persona payload `agentContext` (only `interests` is read by the
embedded methods). -/
structure AgentContext where
  interests : Option (List String)
deriving Repr, DecidableEq

/-- The RPG stats payload (read only by prompt building). -/
structure Stats where
  «class» : String
  level : Int
  int : Int
  impact : Int
  assist : Int
  mistake : Int
deriving Repr, DecidableEq

/-- The mutable fields of a `SessionManager` instance. -/
structure SessionState where
  minDurationMs : Int
  sessionId : Option String
  startTime : Option Int
  actionHistory : List HistoryEntry
  currentContext : CurrentContext
  userGoal : Option String
  aiModel : String
  agentContext : Option AgentContext
  lastRefuelTime : Int
  taskQueue : List Action
  gpuUsageHistory : List ℚ
  stats : Option Stats
  failedElements : List String
  aiCallHistory : List Int
deriving Repr, DecidableEq

/-- `REFUEL_COOLDOWN_MS`. -/
def REFUEL_COOLDOWN_MS : Int := 120000

/-- `MAX_GPU_HISTORY`. -/
def MAX_GPU_HISTORY : Nat := 12

/-- The constructor `new SessionManager(minDurationMinutes, userGoal,
aiModel, agentContext)`. -/
def new (minDurationMinutes : Int := 10) (userGoal : Option String := none)
    (aiModel : String := "qwen:latest") (agentContext : Option AgentContext := none) :
    SessionState :=
  { minDurationMs := minDurationMinutes * 60 * 1000
    sessionId := none
    startTime := none
    actionHistory := []
    currentContext := { url := none, pageType := "unknown", domain := none }
    userGoal := userGoal
    aiModel := aiModel
    agentContext := agentContext
    lastRefuelTime := 0
    taskQueue := []
    gpuUsageHistory := []
    stats := none
    failedElements := []
    aiCallHistory := [] }

/-! ## Timing, history and context methods -/

/-- `recordAction(action, params, status, errorMsg)`: append one history
entry stamped with the current URL and time. -/
def recordAction (st : SessionState) (action : String) (params : Option ActionParams)
    (status : String) (errorMsg : Option String) (now : Int) : SessionState :=
  { st with actionHistory := st.actionHistory ++
      [{ action := action, params := params, status := status, error := errorMsg,
         url := st.currentContext.url, timestamp := now }] }

/-- `getElapsedTime()`; a missing or zero `startTime` is falsy in the
source's `if (!this.startTime) return 0`. -/
def getElapsedTime (st : SessionState) (now : Int) : Int :=
  match st.startTime with
  | none => 0
  | some t => if t = 0 then 0 else now - t

/-- `getRemainingTime()`. -/
def getRemainingTime (st : SessionState) (now : Int) : Int :=
  max 0 (st.minDurationMs - getElapsedTime st now)

/-- `hasReachedMinimum()`. -/
def hasReachedMinimum (st : SessionState) (now : Int) : Bool :=
  getElapsedTime st now ≥ st.minDurationMs

/-- `getAverageGpuUsage()`: 0 on empty history, else the rounded mean. -/
def getAverageGpuUsage (st : SessionState) : Int :=
  if st.gpuUsageHistory.isEmpty then 0
  else round ((st.gpuUsageHistory.foldl (· + ·) 0) / (st.gpuUsageHistory.length : ℚ))

/-- `updateStats(stats)`. -/
def updateStats (st : SessionState) (stats : Stats) : SessionState :=
  { st with stats := some stats }

/-- The source's `url.match(/\/[^\/]+\/[^\/]+$/)` test: the URL ends in
`/seg1/seg2` with both segments non-empty and slash-free. -/
def githubRepoPattern (url : String) : Bool :=
  let r := url.toList.reverse
  let s1 := r.takeWhile (· ≠ '/')
  match r.drop s1.length with
  | '/' :: r2 =>
    let s2 := r2.takeWhile (· ≠ '/')
    (match r2.drop s2.length with
     | '/' :: _ => !s1.isEmpty ∧ !s2.isEmpty
     | _ => false)
  | _ => false

/-- `updateContext(url)`.  `parseHostname` embeds the platform's
`new URL(url).hostname`, with `none` for a constructor throw (the
source's `catch` branch only logs a warning).  The clearing guard is
`this.currentContext.domain && this.currentContext.domain !== urlObj.hostname`:
a missing OR empty-string recorded domain is falsy, so it skips the
clearing. -/
def updateContext (parseHostname : String → Option String) (st : SessionState)
    (url : String) : SessionState :=
  let st := { st with currentContext := { st.currentContext with url := some url } }
  match parseHostname url with
  | none => st
  | some hostname =>
    let failed :=
      match st.currentContext.domain with
      | some d => if d ≠ "" ∧ d ≠ hostname then [] else st.failedElements
      | none => st.failedElements
    let pageType :=
      if jsIncludes hostname "youtube.com" then
        if jsIncludes url "/watch" then "youtube_video" else "youtube_home"
      else if jsIncludes hostname "github.com" then
        if githubRepoPattern url then "github_repo" else "github_general"
      else if jsIncludes hostname "news" ∨ jsIncludes hostname "article" then "news"
      else "general_website"
    { st with
      currentContext := { url := some url, pageType := pageType, domain := some hostname }
      failedElements := failed }

/-- `getCallFrequencyStatus()`'s result record. -/
structure FrequencyStatus where
  level : String
  callsPerMinute : Int
  warning : Option String
deriving Repr, DecidableEq

/-- `getCallFrequencyStatus()`: counts the recorded call timestamps newer
than one minute before `now` and classifies that count. -/
def getCallFrequencyStatus (aiCallHistory : List Int) (now : Int) : FrequencyStatus :=
  let oneMinAgo := now - 60000
  let callsLastMinute : Int := ((aiCallHistory.filter (fun t => t > oneMinAgo)).length : Int)
  let level :=
    if callsLastMinute > 10 then "critical"
    else if callsLastMinute > 5 then "high"
    else "normal"
  { level := level
    callsPerMinute := callsLastMinute
    warning :=
      if level ≠ "normal" then
        some ("Warning: High AI usage detected (" ++ toString callsLastMinute ++ " calls/min)")
      else none }

/-- `isStuckOnSameUrl()`: true when there are at least 5 history entries
and the last 5 all carry the URL of the first of those 5. -/
def isStuckOnSameUrl (actionHistory : List HistoryEntry) : Bool :=
  if actionHistory.length < 5 then false
  else
    let recent := actionHistory.drop (actionHistory.length - 5)
    let urls := recent.map (fun a => a.url)
    match urls with
    | [] => true
    | u0 :: _ => urls.all (fun u => u = u0)

/-- `resetStuckCounter()`: keep only the last 2 history entries. -/
def resetStuckCounter (st : SessionState) : SessionState :=
  if st.actionHistory.length > 2 then
    { st with actionHistory := st.actionHistory.drop (st.actionHistory.length - 2) }
  else st

/-- `getStatus()`'s result record. -/
structure Status where
  sessionId : Option String
  elapsedMs : Int
  elapsedMinutes : Int
  actionsCompleted : Nat
  currentUrl : Option String
  pageType : String
deriving Repr, DecidableEq

/-- `getStatus()`. -/
def getStatus (st : SessionState) (now : Int) : Status :=
  let elapsedMs := getElapsedTime st now
  { sessionId := st.sessionId
    elapsedMs := elapsedMs
    elapsedMinutes := elapsedMs.fdiv 60000
    actionsCompleted := st.actionHistory.length
    currentUrl := st.currentContext.url
    pageType := st.currentContext.pageType }

/-- `end()`: return the status snapshot and null out `sessionId`,
`startTime` and `actionHistory` (nothing else is touched). -/
def «end» (st : SessionState) (now : Int) : Status × SessionState :=
  let status := getStatus st now
  (status, { st with sessionId := none, startTime := none, actionHistory := [] })

/-- `start(initialUrl, userGoal, initialActions)`: stamp a fresh id and
start time, reset history, seed the queue (a non-array argument — `none`
here — seeds an empty queue), optionally override the goal and derive the
initial context.  The GPU-sampling timer it installs is an external
platform callback and has no effect on any embedded method. -/
def start (parseHostname : String → Option String) (st : SessionState) (now : Int)
    (initialUrl : Option String) (userGoal : Option String)
    (initialActions : Option (List Action)) : String × SessionState :=
  let sid := "session_" ++ toString now
  let st := { st with
    sessionId := some sid
    startTime := some now
    actionHistory := []
    taskQueue := match initialActions with | some l => l | none => [] }
  let st := if jsTruthyStr userGoal then { st with userGoal := userGoal } else st
  let st :=
    match initialUrl with
    | some u => if u ≠ "" then updateContext parseHostname st u else st
    | none => st
  (sid, st)

/-! ## Grounding resolver (`_resolveActionParams`) -/

/-- `params?.criteria || params?.intent || ''`. -/
def criteriaOf (params : Option ActionParams) : String :=
  jsOrStr (params.bind (fun p => p.criteria)) (jsOrStr (params.bind (fun p => p.intent)) "")

/-- One alternative of `criteria.replace(/^(find|search for|look up)\s+/i, '')`:
a case-insensitive literal prefix followed by at least one whitespace
character; on a match, the prefix and the whole whitespace run are
dropped. -/
def matchCmdPrefix (cmd : String) (cs : List Char) : Option (List Char) :=
  let cl := cmd.toList
  if (cs.take cl.length).map Char.toLower = cl then
    let rest := cs.drop cl.length
    match rest with
    | c :: _ => if isJsWs c then some (rest.dropWhile isJsWs) else none
    | [] => none
  else none

/-- `criteria.replace(/^(find|search for|look up)\s+/i, '')`, alternatives
tried in the regex's order. -/
def stripLeadingCommand (criteria : String) : String :=
  let cs := criteria.toList
  match (matchCmdPrefix "find" cs).orElse (fun _ => matchCmdPrefix "search for" cs)
      |>.orElse (fun _ => matchCmdPrefix "look up" cs) with
  | some rest => String.mk rest
  | none => criteria

/-- The nav/utility denylist regex
`/login|signin|sign up|register|policy|terms|setting|menu|account|feedback|help|privacy|cookies/`
as its list of literal alternatives. -/
def navUtilityTerms : List String :=
  ["login", "signin", "sign up", "register", "policy", "terms", "setting", "menu",
   "account", "feedback", "help", "privacy", "cookies"]

/-- The search-engine-chrome denylist regex
`/search labs|google apps|more options|tools|filters|all filters|maps|images|news|videos|shopping/`
as its list of literal alternatives. -/
def searchChromeTerms : List String :=
  ["search labs", "google apps", "more options", "tools", "filters", "all filters",
   "maps", "images", "news", "videos", "shopping"]

/-- `text.match(/^[0-9]+$/)`: non-empty and all ASCII digits. -/
def numericOnly (s : String) : Bool :=
  !s.toList.isEmpty ∧ s.toList.all Char.isDigit

/-- The per-element score of the grounding loop
(src/session_manager.js:551-596), accumulated in the source's order.
`lowerCriteria` and `queryTerms` are the loop-invariant derivations made
just before the loop; `failedElements` is the set as it stands when the
loop runs. -/
def scoreElement (action lowerCriteria : String) (queryTerms : List String)
    (agentContext : Option AgentContext) (failedElements : List String)
    (el : InteractiveElement) : Int :=
  let text := lowerStr el.text
  -- A. criteria match
  let s := if jsIncludes text lowerCriteria then (0 : Int) + 100 else 0
  -- B. term match
  let s := queryTerms.foldl (fun s term => if jsIncludes text term then s + 15 else s) s
  -- C. interest match
  let s :=
    match agentContext with
    | some ac =>
      match ac.interests with
      | some interests =>
        interests.foldl (fun s interest => if jsIncludes text (lowerStr interest) then s + 20 else s) s
      | none => s
    | none => s
  -- D. tag priority and text length
  let s :=
    if el.tag = "a" then
      let s := s + 10
      let s := if el.text.length > 30 then s + 30 else s
      if el.text.length > 60 then s + 20 else s
    else s
  let s := if el.tag = "button" then s - 5 else s
  -- E. strict negative filtering
  let s := if navUtilityTerms.any (fun w => jsIncludes text w) then s - 100 else s
  let s := if searchChromeTerms.any (fun w => jsIncludes text w) then s - 80 else s
  let s := if text.length < 5 ∨ numericOnly text then s - 20 else s
  -- F. specific element boosting
  let s :=
    if action = "click_result" ∧ (jsIncludes text "youtube" ∨ jsIncludes text "video")
    then s + 15 else s
  let s :=
    match el.href with
    | some h => if h ≠ "" ∧ ¬ jsIncludes h "google.com" then s + 20 else s
    | none => s
  -- G. failure penalization
  if failedElements.contains el.text then s - 150 else s

/-- `criteria.toLowerCase().split(' ').filter(t => t.length > 3)`. -/
def queryTermsOf (lowerCriteria : String) : List String :=
  ((splitOnChar ' ' lowerCriteria.toList).map String.mk).filter (fun t => t.length > 3)

/-- The resolver's history check (src/session_manager.js:538-546): when
the most recent history entry errored and carries a target text, that
text is added to the failed-element set. -/
def noteLastFailure (failedElements : List String) (actionHistory : List HistoryEntry) :
    List String :=
  match actionHistory.getLast? with
  | none => failedElements
  | some last =>
    if last.status = "error" then
      match last.params with
      | some p =>
        match p.text with
        | some t => if t ≠ "" then setAdd failedElements t else failedElements
        | none => failedElements
      | none => failedElements
    else failedElements

/-- One step of the best-element fold: keep the incumbent unless this
element's score strictly beats it and is positive. -/
def selectStep (score : InteractiveElement → Int)
    (acc : Option InteractiveElement × Int) (el : InteractiveElement) :
    Option InteractiveElement × Int :=
  let s := score el
  if s > acc.2 ∧ s > 0 then (some el, s) else acc

/-- `{ action: 'browse', params: { iterations: n } }`. -/
def browseAction (n : Int) : Action :=
  { action := "browse", params := some { iterations := some n } }

/-- `_resolveActionParams(skeletonAction, pageContent)`: grounding of one
abstract action.  Returns the concrete action and the (possibly extended)
failed-element set, the method's only state effect. -/
def resolveActionParams (agentContext : Option AgentContext) (failedElements : List String)
    (actionHistory : List HistoryEntry) (skeletonAction : Action)
    (pageContent : Option PageContent) : Action × List String :=
  let action := skeletonAction.action
  let params := skeletonAction.params
  let criteria := criteriaOf params
  -- 1. search grounding
  if action = "search" then
    let keyword := params.bind (fun p => p.keyword)
    let keyword :=
      if ¬ jsTruthyStr keyword ∧ criteria ≠ "" then some (stripLeadingCommand criteria)
      else keyword
    ({ action := "search", params := some { keyword := some (jsOrStr keyword "latest trends") } },
     failedElements)
  -- 2. click grounding
  else if action = "click_result" ∨ action = "click_link" then
    match pageContent with
    | none => (browseAction 2, failedElements)
    | some pc =>
      match pc.interactiveElements with
      | none => (browseAction 2, failedElements)
      | some elements =>
        let failed := noteLastFailure failedElements actionHistory
        let lowerCriteria := lowerStr criteria
        let queryTerms := queryTermsOf lowerCriteria
        let best := elements.foldl
          (selectStep (scoreElement action lowerCriteria queryTerms agentContext failed))
          (none, -1)
        match best.1 with
        | some bestEl => ({ action := "click", params := some { text := some bestEl.text } }, failed)
        | none => (browseAction 3, failed)
  -- 3. direct pass-through
  else if action = "browse" ∨ action = "watch" ∨ action = "navigate" then
    (skeletonAction, failedElements)
  else
    (browseAction 3, failedElements)

/-! ## Resilient JSON extractor (`_cleanAndParseJSON`) -/

/-- JSON values, for the abstracted `JSON.parse` result. -/
inductive Json where
  | null
  | bool (b : Bool)
  | num (q : ℚ)
  | str (s : String)
  | arr (elems : List Json)
  | obj (fields : List (String × Json))
deriving Repr

/-- The backquote character (written by code point to keep it out of the
source text). -/
def backquote : Char := Char.ofNat 96

/-- A closing code fence: three backquotes. -/
def fenceChars : List Char := [backquote, backquote, backquote]

/-- The lazy group tail of the fence regex: the first `]` after which
(modulo whitespace) a closing fence follows.  Returns the group's
characters up to and including that `]`. -/
def lazyCloseBeforeFence : List Char → Option (List Char)
  | [] => none
  | c :: cs =>
    if c = ']' ∧ (cs.dropWhile isJsWs).take 3 = fenceChars then some [c]
    else
      match lazyCloseBeforeFence cs with
      | some grp => some (c :: grp)
      | none => none

/-- After an opening fence: `(?:json)?\s*` then the bracketed group. -/
def fenceBody (cs : List Char) : Option (List Char) :=
  match (cs.dropWhile isJsWs) with
  | '[' :: rest =>
    match lazyCloseBeforeFence rest with
    | some grp => some ('[' :: grp)
    | none => none
  | _ => none

/-- Try the fence regex anchored at this position: an opening fence, an
optional literal `json` (tried first, as the regex's greedy `(?:json)?`),
whitespace, then a lazily closed bracketed group followed by a closing
fence. -/
def tryFenceAt (cs : List Char) : Option (List Char) :=
  if cs.take 3 = fenceChars then
    let body := cs.drop 3
    (if body.take 4 = "json".toList then fenceBody (body.drop 4) else none).orElse
      (fun _ => fenceBody body)
  else none

/-- Leftmost match of the code-block regex
``content.match(/` ` `(?:json)?\s*(\[[\s\S]*?\])\s*` ` `/)`` (backquotes
spaced out here), returning the captured group. -/
def codeBlockMatch : List Char → Option (List Char)
  | [] => none
  | c :: cs =>
    match tryFenceAt (c :: cs) with
    | some grp => some grp
    | none => codeBlockMatch cs

/-- The source's bracket-balance scan (src/session_manager.js:448-460),
started at the first `[` of the content: tracks string quoting and escape
characters and stops when the balance returns to zero.  Returns the span
up to and including the matching `]`. -/
def balanceScan : List Char → Int → Bool → Bool → Option (List Char)
  | [], _, _, _ => none
  | c :: cs, balance, insideString, escape =>
    if escape then
      match balanceScan cs balance insideString false with
      | some sp => some (c :: sp) | none => none
    else if c = '\\' then
      match balanceScan cs balance insideString true with
      | some sp => some (c :: sp) | none => none
    else if c = '"' then
      match balanceScan cs balance (!insideString) false with
      | some sp => some (c :: sp) | none => none
    else if ¬ insideString ∧ c = '[' then
      match balanceScan cs (balance + 1) insideString false with
      | some sp => some (c :: sp) | none => none
    else if ¬ insideString ∧ c = ']' then
      if balance - 1 = 0 then some [c]
      else
        match balanceScan cs (balance - 1) insideString false with
        | some sp => some (c :: sp) | none => none
    else
      match balanceScan cs balance insideString false with
      | some sp => some (c :: sp) | none => none

/-- The truncation salvage (src/session_manager.js:464-470): everything
from the first `[` through the last `}` of the content, with a `]`
appended.  `tail` must already start at the first `[`; `none` when no `}`
follows it. -/
def salvageTruncated (tail : List Char) : Option (List Char) :=
  let upToLastBrace := (tail.reverse.dropWhile (fun c => c ≠ '}')).reverse
  if upToLastBrace.isEmpty then none else some (upToLastBrace ++ [']'])

/-- `/"action"\s*:/` has a match. -/
def hasActionKey : List Char → Bool
  | [] => false
  | c :: cs =>
    (c = '"' ∧ (cs.take 7 = "action\"".toList) ∧
      ((cs.drop 7).dropWhile isJsWs).take 1 = [':'])
    ∨ hasActionKey cs

/-- The single-object fallback (src/session_manager.js:474-484): when the
text has a `"action":` key, wrap the span from the first `{` to the last
`}` in array brackets. -/
def braceObjectFallback (cs : List Char) : Option (List Char) :=
  let fromFirstBrace := cs.dropWhile (fun c => c ≠ '{')
  let candidate := (fromFirstBrace.reverse.dropWhile (fun c => c ≠ '}')).reverse
  if candidate.length ≥ 2 ∧ hasActionKey cs then
    some ('[' :: candidate ++ [']'])
  else none

/-- The raw-JSON extraction of `_cleanAndParseJSON` before cleanup:
fenced block, else balanced scan from the first `[`, else truncation
salvage, else single-object fallback. -/
def extractRawJson (cs : List Char) : Option (List Char) :=
  match codeBlockMatch cs with
  | some grp => some grp
  | none =>
    let afterBracket := cs.dropWhile (fun c => c ≠ '[')
    let viaBrackets : Option (List Char) :=
      match afterBracket with
      | [] => none  -- indexOf('[') === -1
      | tail =>
        match balanceScan tail 0 false false with
        | some span => some span
        | none => salvageTruncated tail
    match viaBrackets with
    | some r => some r
    | none => braceObjectFallback cs

/-- Cleanup 1: strip the control and zero-width characters of
the regex class U+0000-U+001F, U+200B-U+200D, U+FEFF. -/
def stripControlChars (cs : List Char) : List Char :=
  cs.filter (fun c =>
    ¬ (c.toNat ≤ 0x1f ∨ (0x200b ≤ c.toNat ∧ c.toNat ≤ 0x200d) ∨ c.toNat = 0xfeff))

/-- Cleanup 2: `/\/\/.*$/gm` — from each `//` to its end of line (fuelled
by the input length; the comment case always consumes the two slashes). -/
def stripLineComments : Nat → List Char → List Char
  | 0, cs => cs
  | _ + 1, [] => []
  | fuel + 1, '/' :: '/' :: rest => stripLineComments fuel (rest.dropWhile (fun c => c ≠ '\n'))
  | fuel + 1, c :: cs => c :: stripLineComments fuel cs

/-- The tail after the first `*/`, for the lazy block-comment regex. -/
def afterBlockCommentClose : List Char → Option (List Char)
  | [] => none
  | '*' :: '/' :: rest => some rest
  | _ :: cs => afterBlockCommentClose cs

/-- Cleanup 3: `/\/\*[\s\S]*?\*\//g` — remove lazily closed block
comments; an unclosed `/*` matches nothing. -/
def stripBlockComments : Nat → List Char → List Char
  | 0, cs => cs
  | _ + 1, [] => []
  | fuel + 1, '/' :: '*' :: rest =>
    (match afterBlockCommentClose rest with
     | some rest2 => stripBlockComments fuel rest2
     | none => '/' :: '*' :: rest)
  | fuel + 1, c :: cs => c :: stripBlockComments fuel cs

/-- A generic single-pass global replace: scan left to right, at each
position let the matcher consume a match and emit its replacement, else
keep one character.  Fuel bounds the scan (one unit per emitted piece);
every call supplies the input length, which suffices because a match
always consumes at least one character. -/
def replaceScan (matcher : List Char → Option (List Char × List Char)) :
    Nat → List Char → List Char
  | 0, cs => cs
  | _ + 1, [] => []
  | fuel + 1, c :: cs =>
    match matcher (c :: cs) with
    | some (rep, rest) => rep ++ replaceScan matcher fuel rest
    | none => c :: replaceScan matcher fuel cs

/-- Cleanup 4 matcher: `/\|text:"/g → ', "text_alt":"'`. -/
def pipeTextMatcher (cs : List Char) : Option (List Char × List Char) :=
  match cs with
  | '|' :: 't' :: 'e' :: 'x' :: 't' :: ':' :: '"' :: rest =>
    some ((", \"text_alt\":\"").toList, rest)
  | _ => none

/-- Cleanup 5 matcher: `/}}\s*,*\s*{/g → '},{'`. -/
def doubleBraceMatcher (cs : List Char) : Option (List Char × List Char) :=
  match cs with
  | '}' :: '}' :: rest =>
    let r := ((rest.dropWhile isJsWs).dropWhile (fun c => c = ',')).dropWhile isJsWs
    (match r with
     | '{' :: r2 => some (['}', ',', '{'], r2)
     | _ => none)
  | _ => none

/-- Cleanup 6 matcher: `/}\s*,{2,}\s*{/g → '},{'`. -/
def multiCommaMatcher (cs : List Char) : Option (List Char × List Char) :=
  match cs with
  | '}' :: rest =>
    let r1 := rest.dropWhile isJsWs
    let commas := r1.takeWhile (fun c => c = ',')
    if commas.length ≥ 2 then
      (match (r1.drop commas.length).dropWhile isJsWs with
       | '{' :: r2 => some (['}', ',', '{'], r2)
       | _ => none)
    else none
  | _ => none

/-- Cleanup 7 matcher: `/}\s*{/g → '},{'`. -/
def braceBraceMatcher (cs : List Char) : Option (List Char × List Char) :=
  match cs with
  | '}' :: rest =>
    (match rest.dropWhile isJsWs with
     | '{' :: r2 => some (['}', ',', '{'], r2)
     | _ => none)
  | _ => none

/-- Cleanup 8/9 matcher: `/,(\s*X)/g → '$1'` for a closer `X` (`]` or
`}`) — drop a trailing comma, keep the whitespace and the closer. -/
def trailingCommaMatcher (closer : Char) (cs : List Char) : Option (List Char × List Char) :=
  match cs with
  | ',' :: rest =>
    let ws := rest.takeWhile isJsWs
    (match rest.drop ws.length with
     | c :: r2 => if c = closer then some (ws ++ [closer], r2) else none
     | [] => none)
  | _ => none

/-- Cleanup 10 matcher: `/}\s*\d+\.?\s*{/g → '},{'` (stray list numbering
between objects). -/
def numberedBraceMatcher (cs : List Char) : Option (List Char × List Char) :=
  match cs with
  | '}' :: rest =>
    let r1 := rest.dropWhile isJsWs
    let digits := r1.takeWhile Char.isDigit
    if digits.isEmpty then none
    else
      let r2 := r1.drop digits.length
      let r3 := match r2 with | '.' :: t => t | _ => r2
      (match r3.dropWhile isJsWs with
       | '{' :: r4 => some (['}', ',', '{'], r4)
       | _ => none)
  | _ => none

/-- The whole cleanup chain of `_cleanAndParseJSON`
(src/session_manager.js:490-499), in the source's order. -/
def cleanupJson (cs : List Char) : List Char :=
  let cs := stripControlChars cs
  let cs := stripLineComments cs.length cs
  let cs := stripBlockComments cs.length cs
  let cs := replaceScan pipeTextMatcher cs.length cs
  let cs := replaceScan doubleBraceMatcher cs.length cs
  let cs := replaceScan multiCommaMatcher cs.length cs
  let cs := replaceScan braceBraceMatcher cs.length cs
  let cs := replaceScan (trailingCommaMatcher ']') cs.length cs
  let cs := replaceScan (trailingCommaMatcher '}') cs.length cs
  replaceScan numberedBraceMatcher cs.length cs

/-- `_cleanAndParseJSON(content)`.  `jsonParse` abstracts the platform's
`JSON.parse`, with `none` for a thrown exception (the source catches it
and returns `null`).  The result is `null` (`none`) or the parsed array,
kept only when parsing succeeded on an array with at least one element. -/
def cleanAndParseJSON (jsonParse : String → Option Json) (content : String) :
    Option (List Json) :=
  match extractRawJson content.toList with
  | none => none
  | some rawJson =>
    let cleanJson := String.mk (cleanupJson rawJson)
    match jsonParse cleanJson with
    | some (Json.arr elems) => if elems.length > 0 then some elems else none
    | some _ => none
    | none => none

/-! ## Plan generation (`generateAIAction`, `generateNextAction`) -/

/-- `generateAIAction(pageContent, remainingMinutes)`.

The HTTP round trip and the dynamic reading of the parsed JSON as
`{action, params}` objects are abstracted: `response` is the backend's
message content (`none` for a request error, a missing choice or missing
content — every case the source turns into `null`), and `parseSkeleton`
stands for `_cleanAndParseJSON` composed with that dynamic reading (the
pure-text extractor itself is embedded separately as
`cleanAndParseJSON`).  The prompt built by `_buildAIPrompt` is pure
string formatting with no state effect, so it is not needed here: the
theorems quantify over every possible `response`.

Before the request the call timestamp is recorded and the recorded
history pruned to the last five minutes; on success each skeleton action
is grounded in order through `_resolveActionParams`, threading the
failed-element set. -/
def generateAIAction (st : SessionState) (pageContent : Option PageContent)
    (now : Int) (response : Option String)
    (parseSkeleton : String → Option (List Action)) :
    Option (List Action) × SessionState :=
  let aiCallHistory := st.aiCallHistory ++ [now]
  let fiveMinsAgo := now - 5 * 60 * 1000
  let aiCallHistory := aiCallHistory.filter (fun t => t > fiveMinsAgo)
  let st := { st with aiCallHistory := aiCallHistory }
  match response with
  | none => (none, st)
  | some content =>
    if content = "" then (none, st)
    else
      match parseSkeleton content with
      | none => (none, st)
      | some skeleton =>
        let (chain, failed) := skeleton.foldl
          (fun (acc : List Action × List String) a =>
            let (ra, f) := resolveActionParams st.agentContext acc.2 st.actionHistory a pageContent
            (acc.1 ++ [ra], f))
          ([], st.failedElements)
        (some chain, { st with failedElements := failed })

/-- The variance pass of `generateNextAction` over one grounded action
(src/session_manager.js:338-354): scale a parsable `duration` by a random
factor in `[0.7, 1.1)` and jitter `iterations` by `-2..+1`, flooring at 3.
`rand` is the `Math.random()` oracle and `k` the index of its next draw;
returns the action and the next unused index. -/
def humanizeAction (rand : Nat → ℚ) (k : Nat) (a : Action) : Action × Nat :=
  match a.params with
  | none => (a, k)
  | some p =>
    let (p, k) :=
      match p.duration with
      | some d =>
        if d ≠ "" then
          match jsParseInt d with
          | some seconds =>
            let variance : ℚ := 7 / 10 + rand k * (4 / 10)
            let newSeconds : Int := ⌊(seconds : ℚ) * variance⌋
            ({ p with duration := some (toString newSeconds ++ "s") }, k + 1)
          | none => (p, k)
        else (p, k)
      | none => (p, k)
    let (p, k) :=
      match p.iterations with
      | some i =>
        if i ≠ 0 then
          let base := i
          let variance : Int := ⌊rand k * 4⌋ - 2
          ({ p with iterations := some (max 3 (base + variance)) }, k + 1)
        else (p, k)
      | none => (p, k)
    ({ a with params := some p }, k)

/-- The variance pass over a whole chain, threading the draw index. -/
def humanizeChain (rand : Nat → ℚ) (k : Nat) (chain : List Action) : List Action :=
  (chain.foldl (fun (acc : List Action × Nat) a =>
      let (a, k) := humanizeAction rand acc.2 a
      (acc.1 ++ [a], k))
    ([], k)).1

/-- `_getFallbackAction()`. -/
def getFallbackAction : List Action :=
  [browseAction 10]

/-- `_getContentBasedAction(pageContent, remainingMs)`: the deterministic
(up to the random oracle) heuristic fallback.  `k` is the index of the
next unused random draw. -/
def getContentBasedAction (st : SessionState) (pageContent : Option PageContent)
    (remainingMs : Int) (rand : Nat → ℚ) (k : Nat) : List Action :=
  let _ := remainingMs  -- passed by the source, unread in this revision's body
  match pageContent with
  | none => getFallbackAction
  | some pc =>
    let r := rand k
    let currentUrl := jsOrStr st.currentContext.url ""
    if jsIncludes currentUrl "youtube.com" then
      if jsIncludes currentUrl "/watch" then
        [{ action := "watch", params := some { duration := some "60s" } }]
      else
        let searchPick : Option (List Action) :=
          match st.agentContext with
          | some ac =>
            if r < 4 / 10 then
              let topics := match ac.interests with | some l => l | none => []
              if topics.length > 0 then
                let idx := (⌊rand (k + 1) * (topics.length : ℚ)⌋).toNat
                some [{ action := "search",
                        params := some { keyword := some (topics.getD idx "") } }]
              else none
            else none
          | none => none
        match searchPick with
        | some acts => acts
        | none =>
          let els : List InteractiveElement :=
            match pc.interactiveElements with | some l => l | none => []
          let videoLinks := els.filter (fun el =>
              match el.href with
              | some h => jsIncludes h "youtube.com/watch" ∨ jsIncludes h "/watch?v="
              | none => false)
          if videoLinks.length > 0 ∧ r < 8 / 10 then
            let idx := (⌊rand (k + 1) * (videoLinks.length : ℚ)⌋).toNat
            let randomVideo := videoLinks.getD idx
              { text := "", tag := "", href := none }
            [{ action := "click", params := some { text := some randomVideo.text } },
             { action := "watch", params := some { duration := some "60s" } }]
          else
            [browseAction 5]
    else
      [browseAction 5]

/-- `generateNextAction(page, pageContent)`: the per-iteration planning
step.  Returns the plan (`none` signals the caller to handle blocking
pages or session end) and the updated state.

Order of business, as in the source: non-empty task queue wins outright;
then the blocking-page check; then the minimum-duration check; then, with
a goal set, AI planning (through `generateAIAction`, whose backend
exchange is abstracted by `response`/`parseSkeleton`) with the variance
pass on success; finally the content heuristic. -/
def generateNextAction (st : SessionState) (pageContent : Option PageContent)
    (now : Int) (response : Option String)
    (parseSkeleton : String → Option (List Action)) (rand : Nat → ℚ) :
    Option (List Action) × SessionState :=
  let remainingMs := getRemainingTime st now
  let _remainingMinutes := jsCeilDiv remainingMs 60000
  match st.taskQueue with
  | nextFromQueue :: restQueue =>
    (some [nextFromQueue], { st with taskQueue := restQueue })
  | [] =>
    let blocking : Bool :=
      match pageContent with
      | some pc => pc.isErrorPage ∨ pc.hasCaptcha
      | none => false
    if blocking then
      (none, st)
    else if hasReachedMinimum st now then
      (none, st)
    else
      let viaAI : Option (List Action) × SessionState :=
        if jsTruthyStr st.userGoal then
          let _gpuUsage := getAverageGpuUsage st
          let _timeSinceLastRefuel := now - st.lastRefuelTime
          let (aiAction, st') := generateAIAction st pageContent now response parseSkeleton
          match aiAction with
          | some actionChain => (some (humanizeChain rand 0 actionChain), st')
          | none => (none, st')
        else (none, st)
      match viaAI with
      | (some chain, st') => (some chain, st')
      | (none, st') => (some (getContentBasedAction st' pageContent remainingMs rand 0), st')

/-! ## Spec-side definitions

Definitions in this section transcribe the SPEC's wording (not the
source), for comparison against the embedded source functions. -/

/-- Spec-side transcription of the grounding score as the claim lists it:
one additive sum of independent components. -/
def specGroundingScore (action lowerCriteria : String) (queryTerms : List String)
    (agentContext : Option AgentContext) (failedElements : List String)
    (el : InteractiveElement) : Int :=
  let text := lowerStr el.text
  let interests : List String :=
    match agentContext with
    | some ac => match ac.interests with | some l => l | none => []
    | none => []
  (if jsIncludes text lowerCriteria then (100 : Int) else 0)
  + 15 * ((queryTerms.filter (fun term => jsIncludes text term)).length : Int)
  + 20 * ((interests.filter (fun interest => jsIncludes text (lowerStr interest))).length : Int)
  + (if el.tag = "a" then
       10 + (if el.text.length > 30 then (30 : Int) else 0)
          + (if el.text.length > 60 then (20 : Int) else 0)
     else 0)
  + (if el.tag = "button" then (-5 : Int) else 0)
  + (if navUtilityTerms.any (fun w => jsIncludes text w) then (-100 : Int) else 0)
  + (if searchChromeTerms.any (fun w => jsIncludes text w) then (-80 : Int) else 0)
  + (if text.length < 5 ∨ numericOnly text then (-20 : Int) else 0)
  + (if action = "click_result" ∧ (jsIncludes text "youtube" ∨ jsIncludes text "video")
     then (15 : Int) else 0)
  + (match el.href with
     | some h => if h ≠ "" ∧ ¬ jsIncludes h "google.com" then (20 : Int) else 0
     | none => 0)
  + (if failedElements.contains el.text then (-150 : Int) else 0)

/-- Spec-side count of recorded calls in a five-minute sliding window
ending at `now` (the window the claim says the classification uses). -/
def specFiveMinuteWindowCount (aiCallHistory : List Int) (now : Int) : Nat :=
  (aiCallHistory.filter (fun t => t > now - 5 * 60 * 1000)).length

/-- Spec-side classification thresholds applied to a call count (what the
source applies to the one-minute count). -/
def specLevelOfCount (n : Int) : String :=
  if n > 10 then "critical" else if n > 5 then "high" else "normal"

/-! ## Helper lemmas -/

theorem ite_add_shift (c : Prop) [Decidable c] (x k : Int) :
    (if c then x + k else x) = x + (if c then k else 0) := by
  split <;> simp

theorem ite_sub_shift (c : Prop) [Decidable c] (x k : Int) :
    (if c then x - k else x) = x + (if c then -k else 0) := by
  split <;> simp [sub_eq_add_neg]

theorem ite_tag_shift (c : Prop) [Decidable c] (x a b d : Int) :
    (if c then ((x + a) + b) + d else x) = x + (if c then a + b + d else 0) := by
  split <;> ring

theorem foldl_ite_add_count (p : String → Bool) (k : Int) :
    ∀ (l : List String) (s : Int),
      l.foldl (fun s t => if p t then s + k else s) s
        = s + k * ((l.filter p).length : Int) := by
  intro l
  induction l with
  | nil => intro s; simp
  | cons h t ih =>
    intro s
    by_cases hp : p h <;> simp [hp, ih, List.filter_cons] <;> ring

/-- C3's equality at the level of one element's score. -/
theorem scoreElement_eq_spec (action lowerCriteria : String) (queryTerms : List String)
    (agentContext : Option AgentContext) (failedElements : List String)
    (el : InteractiveElement) :
    scoreElement action lowerCriteria queryTerms agentContext failedElements el
      = specGroundingScore action lowerCriteria queryTerms agentContext failedElements el := by
  rcases el with ⟨tx, tg, hr⟩
  unfold scoreElement specGroundingScore
  rcases agentContext with _ | ⟨_ | interests⟩ <;> rcases hr with _ | h <;>
    simp only [foldl_ite_add_count] <;>
    simp only [ite_add_shift, ite_sub_shift, ite_tag_shift, List.filter_nil,
      List.length_nil, Nat.cast_zero, mul_zero] <;>
    ring

/-- Exact behaviour of the best-element fold: either no element ever beat
the seed (and the seed survives), or the result is the first element that
attains the running maximum — strictly above the seed and zero, strictly
above everything before it, at least everything after it. -/
theorem selectFold_spec (score : InteractiveElement → Int) :
    ∀ (l : List InteractiveElement) (b : Option InteractiveElement) (s : Int),
      (l.foldl (selectStep score) (b, s) = (b, s) ∧ ∀ e ∈ l, score e ≤ s ∨ score e ≤ 0)
      ∨ (∃ l₁ c l₂, l = l₁ ++ c :: l₂ ∧ s < score c ∧ 0 < score c
          ∧ (∀ e ∈ l₁, score e < score c ∨ score e ≤ 0)
          ∧ (∀ e ∈ l₂, score e ≤ score c)
          ∧ l.foldl (selectStep score) (b, s) = (some c, score c)) := by
  intro l
  induction l with
  | nil => intro b s; exact Or.inl ⟨rfl, by simp⟩
  | cons e t ih =>
    intro b s
    by_cases hcond : score e > s ∧ score e > 0
    · have hstep : selectStep score (b, s) e = (some e, score e) := by
        simp [selectStep, hcond]
      rcases ih (some e) (score e) with ⟨heq, hall⟩ | ⟨l₁, c, l₂, hsplit, hlt, hpos, h₁, h₂, heq⟩
      · refine Or.inr ⟨[], e, t, by simp, hcond.1, hcond.2, by simp, ?_, ?_⟩
        · intro x hx
          rcases hall x hx with hc | hc
          · exact hc
          · omega
        · simpa [List.foldl_cons, hstep] using heq
      · refine Or.inr ⟨e :: l₁, c, l₂, by simp [hsplit], by omega, hpos, ?_, h₂, ?_⟩
        · intro x hx
          rcases List.mem_cons.mp hx with hx | hx
          · subst hx; left; omega
          · exact h₁ x hx
        · simpa [List.foldl_cons, hstep] using heq
    · have hstep : selectStep score (b, s) e = (b, s) := by
        simp only [selectStep]
        rw [if_neg hcond]
      rcases ih b s with ⟨heq, hall⟩ | ⟨l₁, c, l₂, hsplit, hlt, hpos, h₁, h₂, heq⟩
      · refine Or.inl ⟨by simpa [List.foldl_cons, hstep] using heq, ?_⟩
        intro x hx
        rcases List.mem_cons.mp hx with hx | hx
        · subst hx; omega
        · exact hall x hx
      · refine Or.inr ⟨e :: l₁, c, l₂, by simp [hsplit], hlt, hpos, ?_, h₂, ?_⟩
        · intro x hx
          rcases List.mem_cons.mp hx with hx | hx
          · subst hx
            rcases not_and_or.mp hcond with hc | hc
            · left; omega
            · right; omega
          · exact h₁ x hx
        · simpa [List.foldl_cons, hstep] using heq

/-- The click branch of `_resolveActionParams`, written out: with a
snapshot carrying an element list, the result is determined by the
best-element fold over the post-failure-note set. -/
theorem resolveActionParams_click (agentContext : Option AgentContext)
    (failedElements : List String) (actionHistory : List HistoryEntry)
    (params : Option ActionParams) (pc : PageContent)
    (elements : List InteractiveElement) (act : String)
    (hact : act = "click_result" ∨ act = "click_link")
    (hels : pc.interactiveElements = some elements) :
    resolveActionParams agentContext failedElements actionHistory
        { action := act, params := params } (some pc)
      = (let failed := noteLastFailure failedElements actionHistory
         let lowerCriteria := lowerStr (criteriaOf params)
         let best := elements.foldl
           (selectStep (scoreElement act lowerCriteria (queryTermsOf lowerCriteria)
             agentContext failed)) (none, -1)
         match best.1 with
         | some bestEl =>
           ({ action := "click", params := some { text := some bestEl.text } }, failed)
         | none => (browseAction 3, failed)) := by
  rcases hact with h | h <;> subst h <;> simp [resolveActionParams, hels]

/-- A best-element fold that produced an element picked it from the list. -/
theorem foldl_selectStep_mem (score : InteractiveElement → Int)
    (l : List InteractiveElement) (el : InteractiveElement)
    (h : (l.foldl (selectStep score) (none, -1)).1 = some el) : el ∈ l := by
  rcases selectFold_spec score l none (-1) with ⟨heq, _⟩ | ⟨l₁, c, l₂, hsplit, _, _, _, _, heq⟩
  · rw [heq] at h; cases h
  · rw [heq] at h
    have hce : el = c := by injection h with h2; exact h2.symm
    rw [hsplit, hce]
    exact List.mem_append_right l₁ (List.mem_cons_self c l₂)

/-- The interactive-element list the resolver would read from an optional
snapshot (empty when the snapshot or the list is missing). -/
def snapshotElements (pageContent : Option PageContent) : List InteractiveElement :=
  match pageContent with
  | some pc => match pc.interactiveElements with | some l => l | none => []
  | none => []

/-! ## Claim theorems -/

/-- C1: for every input string (and any behaviour of the platform's
`JSON.parse`), `_cleanAndParseJSON` terminates without throwing — it is a
total function whose exceptions are all caught — and returns either a
parsed array with at least one element or `null`; never an empty array, a
non-array value, or a propagated parse exception. -/
theorem cleanAndParseJSON_nonempty_or_null (jsonParse : String → Option Json)
    (content : String) :
    cleanAndParseJSON jsonParse content = none
    ∨ ∃ elems, cleanAndParseJSON jsonParse content = some elems ∧ elems ≠ [] := by
  unfold cleanAndParseJSON
  rcases hex : extractRawJson content.toList with _ | raw
  · exact Or.inl rfl
  · simp only []
    rcases hp : jsonParse (String.mk (cleanupJson raw)) with _ | j
    · exact Or.inl rfl
    · cases j with
      | arr elems =>
        by_cases hlen : elems.length > 0
        · refine Or.inr ⟨elems, by simp [hlen], ?_⟩
          intro hnil
          rw [hnil] at hlen
          simp at hlen
        · simp [hlen]
      | null => exact Or.inl rfl
      | bool b => exact Or.inl rfl
      | num q => exact Or.inl rfl
      | str s => exact Or.inl rfl
      | obj fields => exact Or.inl rfl

/-- C2: grounding a `click_result`/`click_link` action against any
snapshot yields either a click whose target text is the text of an
element of the snapshot's interactive-element list, or a browse action —
never a fabricated target string. -/
theorem grounding_click_target_from_snapshot (agentContext : Option AgentContext)
    (failedElements : List String) (actionHistory : List HistoryEntry)
    (a : Action) (pageContent : Option PageContent)
    (hact : a.action = "click_result" ∨ a.action = "click_link") :
    (∃ el ∈ snapshotElements pageContent,
        (resolveActionParams agentContext failedElements actionHistory a pageContent).1
          = { action := "click", params := some { text := some el.text } })
    ∨ (resolveActionParams agentContext failedElements actionHistory a pageContent).1.action
        = "browse" := by
  obtain ⟨act, params⟩ := a
  simp only at hact
  rcases pageContent with _ | pc
  · rcases hact with h | h <;> subst h <;> right <;> simp [resolveActionParams, browseAction]
  · rcases hels : pc.interactiveElements with _ | elements
    · rcases hact with h | h <;> subst h <;> right <;>
        simp [resolveActionParams, hels, browseAction]
    · rw [resolveActionParams_click agentContext failedElements actionHistory params pc
        elements act hact hels]
      simp only []
      rcases hbest : (elements.foldl
          (selectStep (scoreElement act (lowerStr (criteriaOf params))
            (queryTermsOf (lowerStr (criteriaOf params))) agentContext
            (noteLastFailure failedElements actionHistory))) (none, -1)).1 with _ | bestEl
      · right; simp [browseAction]
      · left
        refine ⟨bestEl, ?_, rfl⟩
        simp only [snapshotElements, hels]
        exact foldl_selectStep_mem _ elements bestEl hbest

/-- Fixture for the witnesses below: the spec's Scenario A snapshot (a
denylisted `Login` link and a long framework-article link). -/
def loginEl : InteractiveElement :=
  { text := "Login", tag := "a", href := none }

/-- Fixture: the long content link of the spec's Scenario A. -/
def frameworksEl : InteractiveElement :=
  { text := "Top 10 JavaScript Frameworks in 2024 You Should Know", tag := "a",
    href := some "https://x.com/a" }

/-- Fixture: the Scenario A snapshot. -/
def scenarioSnapshot : PageContent :=
  { isErrorPage := false, hasCaptcha := false,
    interactiveElements := some [loginEl, frameworksEl],
    hasVideo := false, hasSearchBox := false }

/-- Fixture: the Scenario A abstract click parameters. -/
def scenarioParams : Option ActionParams :=
  some { criteria := some "javascript frameworks" }

/-- Fixture: the score function the resolver uses on the Scenario A
inputs (empty persona, empty failure memory, empty history). -/
def scenarioScore : InteractiveElement → Int :=
  scoreElement "click_result" (lowerStr (criteriaOf scenarioParams))
    (queryTermsOf (lowerStr (criteriaOf scenarioParams))) none (noteLastFailure [] [])

theorem grounding_click_target_from_snapshot_witness :
    (∃ el ∈ snapshotElements (some scenarioSnapshot),
        (resolveActionParams none [] []
          { action := "click_result", params := scenarioParams } (some scenarioSnapshot)).1
          = { action := "click", params := some { text := some el.text } })
    ∨ (resolveActionParams none [] []
        { action := "click_result", params := scenarioParams } (some scenarioSnapshot)).1.action
        = "browse" :=
  grounding_click_target_from_snapshot none [] [] _ _ (Or.inl rfl)

/-- C3: the grounding score the resolver computes for an element — with
the criteria lower-cased and split into its words of length above 3
exactly as the resolver does — equals the additive sum of the components
the spec lists (`specGroundingScore`). -/
theorem grounding_score_is_spec_sum (action criteria : String)
    (agentContext : Option AgentContext) (failedElements : List String)
    (el : InteractiveElement) :
    scoreElement action (lowerStr criteria) (queryTermsOf (lowerStr criteria))
        agentContext failedElements el
      = specGroundingScore action (lowerStr criteria) (queryTermsOf (lowerStr criteria))
        agentContext failedElements el :=
  scoreElement_eq_spec action (lowerStr criteria) (queryTermsOf (lowerStr criteria))
    agentContext failedElements el

/-- C4: among the snapshot's elements, the resolver picks the strictly
highest positive score, ties resolving to the first element in snapshot
order, and returns a click on its text; with no element scoring above
zero it returns the generic browse action (iterations 3) instead of
failing. -/
theorem grounding_selects_first_best_positive (agentContext : Option AgentContext)
    (failedElements : List String) (actionHistory : List HistoryEntry)
    (params : Option ActionParams) (pc : PageContent)
    (elements : List InteractiveElement) (act : String)
    (hact : act = "click_result" ∨ act = "click_link")
    (hels : pc.interactiveElements = some elements) :
    ((∀ e ∈ elements,
        scoreElement act (lowerStr (criteriaOf params))
          (queryTermsOf (lowerStr (criteriaOf params))) agentContext
          (noteLastFailure failedElements actionHistory) e ≤ 0) →
      resolveActionParams agentContext failedElements actionHistory
          { action := act, params := params } (some pc)
        = (browseAction 3, noteLastFailure failedElements actionHistory))
    ∧ ((∃ e ∈ elements, 0 <
        scoreElement act (lowerStr (criteriaOf params))
          (queryTermsOf (lowerStr (criteriaOf params))) agentContext
          (noteLastFailure failedElements actionHistory) e) →
      ∃ l₁ best l₂,
        elements = l₁ ++ best :: l₂
        ∧ 0 < scoreElement act (lowerStr (criteriaOf params))
            (queryTermsOf (lowerStr (criteriaOf params))) agentContext
            (noteLastFailure failedElements actionHistory) best
        ∧ (∀ e ∈ l₁,
            scoreElement act (lowerStr (criteriaOf params))
              (queryTermsOf (lowerStr (criteriaOf params))) agentContext
              (noteLastFailure failedElements actionHistory) e
            < scoreElement act (lowerStr (criteriaOf params))
              (queryTermsOf (lowerStr (criteriaOf params))) agentContext
              (noteLastFailure failedElements actionHistory) best)
        ∧ (∀ e ∈ elements,
            scoreElement act (lowerStr (criteriaOf params))
              (queryTermsOf (lowerStr (criteriaOf params))) agentContext
              (noteLastFailure failedElements actionHistory) e
            ≤ scoreElement act (lowerStr (criteriaOf params))
              (queryTermsOf (lowerStr (criteriaOf params))) agentContext
              (noteLastFailure failedElements actionHistory) best)
        ∧ resolveActionParams agentContext failedElements actionHistory
            { action := act, params := params } (some pc)
          = ({ action := "click", params := some { text := some best.text } },
             noteLastFailure failedElements actionHistory)) := by
  set score := scoreElement act (lowerStr (criteriaOf params))
    (queryTermsOf (lowerStr (criteriaOf params))) agentContext
    (noteLastFailure failedElements actionHistory) with hscore
  rw [resolveActionParams_click agentContext failedElements actionHistory params pc
    elements act hact hels]
  simp only []
  constructor
  · intro hall
    rcases selectFold_spec score elements none (-1) with ⟨heq, _⟩ |
      ⟨l₁, c, l₂, hsplit, _, hpos, _, _, _⟩
    · rw [heq]
    · exfalso
      have hc : c ∈ elements := by
        rw [hsplit]; exact List.mem_append_right l₁ (List.mem_cons_self c l₂)
      have := hall c hc
      omega
  · rintro ⟨e, he, hpos⟩
    rcases selectFold_spec score elements none (-1) with ⟨heq, hall⟩ |
      ⟨l₁, c, l₂, hsplit, _, hcpos, h₁, h₂, heq⟩
    · exfalso
      rcases hall e he with h | h <;> omega
    · refine ⟨l₁, c, l₂, hsplit, hcpos, ?_, ?_, by rw [heq]⟩
      · intro x hx
        rcases h₁ x hx with h | h
        · exact h
        · omega
      · intro x hx
        rw [hsplit] at hx
        rcases List.mem_append.mp hx with hx | hx
        · rcases h₁ x hx with h | h <;> omega
        · rcases List.mem_cons.mp hx with hx | hx
          · subst hx; omega
          · exact h₂ x hx

theorem grounding_selects_first_best_positive_witness :
    ((∀ e ∈ [loginEl, frameworksEl], scenarioScore e ≤ 0) →
      resolveActionParams none [] []
          { action := "click_result", params := scenarioParams } (some scenarioSnapshot)
        = (browseAction 3, noteLastFailure [] []))
    ∧ ((∃ e ∈ [loginEl, frameworksEl], 0 < scenarioScore e) →
      ∃ l₁ best l₂,
        [loginEl, frameworksEl] = l₁ ++ best :: l₂
        ∧ 0 < scenarioScore best
        ∧ (∀ e ∈ l₁, scenarioScore e < scenarioScore best)
        ∧ (∀ e ∈ [loginEl, frameworksEl], scenarioScore e ≤ scenarioScore best)
        ∧ resolveActionParams none [] []
            { action := "click_result", params := scenarioParams } (some scenarioSnapshot)
          = ({ action := "click", params := some { text := some best.text } },
             noteLastFailure [] [])) :=
  grounding_selects_first_best_positive none [] [] scenarioParams scenarioSnapshot
    [loginEl, frameworksEl] "click_result" (Or.inl rfl) rfl

/-- C10: a skeleton action of any unrecognized kind grounds to exactly
the generic browse action with iterations 3, with the failed-element set
untouched; no exception, and the unrecognized kind is never forwarded. -/
theorem unrecognized_kind_grounds_to_browse (agentContext : Option AgentContext)
    (failedElements : List String) (actionHistory : List HistoryEntry)
    (a : Action) (pageContent : Option PageContent)
    (h : a.action ∉ (["search", "click_result", "click_link", "browse", "watch",
      "navigate"] : List String)) :
    resolveActionParams agentContext failedElements actionHistory a pageContent
      = (browseAction 3, failedElements) := by
  obtain ⟨act, params⟩ := a
  simp only [List.mem_cons, List.mem_singleton, not_or] at h
  obtain ⟨h1, h2, h3, h4, h5, h6, -⟩ := h
  simp [resolveActionParams, h1, h2, h3, h4, h5, h6]

theorem unrecognized_kind_grounds_to_browse_witness :
    resolveActionParams none [] [] { action := "dance", params := none } none
      = (browseAction 3, []) :=
  unrecognized_kind_grounds_to_browse none [] [] { action := "dance", params := none } none
    (by decide)

/-- C5: with a non-empty task queue, `generateNextAction` returns exactly
the dequeued head as the sole plan and the state with the queue's tail —
nothing else of the state changes, and the result is the same for every
page snapshot, clock value, backend response, parse behaviour and random
oracle, so neither the blocking-page check, the minimum-duration check,
the AI backend nor the content heuristic is consulted. -/
theorem queue_head_is_sole_plan (st : SessionState) (q : Action) (qs : List Action)
    (h : st.taskQueue = q :: qs) (pageContent : Option PageContent) (now : Int)
    (response : Option String) (parseSkeleton : String → Option (List Action))
    (rand : Nat → ℚ) :
    generateNextAction st pageContent now response parseSkeleton rand
      = (some [q], { st with taskQueue := qs }) := by
  unfold generateNextAction
  rw [h]

/-- Fixture: a fresh session with two queued actions. -/
def queuedState : SessionState :=
  { new 10 none "qwen:latest" none with taskQueue := [browseAction 1, browseAction 2] }

theorem queue_head_is_sole_plan_witness :
    generateNextAction queuedState none 0 none (fun _ => none) (fun _ => 0)
      = (some [browseAction 1], { queuedState with taskQueue := [browseAction 2] }) :=
  queue_head_is_sole_plan queuedState (browseAction 1) [browseAction 2] rfl none 0 none
    (fun _ => none) (fun _ => 0)

/-- C6 counterexample: the classification is NOT a function of the
number of recorded calls in a 5-minute sliding window, as the claim
states: two histories with the same 5-minute count (six calls each, one
with the calls 2 minutes old, one with them 1 second old) classify
differently, because the source classifies on a 1-minute window. -/
theorem call_rate_not_by_five_minute_window :
    specFiveMinuteWindowCount [240000, 240000, 240000, 240000, 240000, 240000] 300000
      = specFiveMinuteWindowCount [299000, 299000, 299000, 299000, 299000, 299000] 300000
    ∧ (getCallFrequencyStatus [240000, 240000, 240000, 240000, 240000, 240000] 300000).level
        = "normal"
    ∧ (getCallFrequencyStatus [299000, 299000, 299000, 299000, 299000, 299000] 300000).level
        = "high" := by
  decide

/-- C6 (amended): every backend call of `generateAIAction` records its
timestamp, pruning the record to a five-minute retention window, and
`getCallFrequencyStatus` classifies normal/high/critical as a function of
the number of recorded calls in a ONE-minute sliding window ending now
(thresholds >10 critical, >5 high); the status is a pure reading that
throttles nothing — the recorded history and the produced plan do not
depend on it. -/
theorem call_recording_and_one_minute_classification :
    (∀ (st : SessionState) (pageContent : Option PageContent) (now : Int)
        (response : Option String) (parseSkeleton : String → Option (List Action)),
      (generateAIAction st pageContent now response parseSkeleton).2.aiCallHistory
        = (st.aiCallHistory ++ [now]).filter (fun t => t > now - 5 * 60 * 1000))
    ∧ (∀ (aiCallHistory : List Int) (now : Int),
        (getCallFrequencyStatus aiCallHistory now).level
          = specLevelOfCount ((aiCallHistory.filter (fun t => t > now - 60000)).length : Int)
        ∧ (getCallFrequencyStatus aiCallHistory now).callsPerMinute
          = ((aiCallHistory.filter (fun t => t > now - 60000)).length : Int)) := by
  constructor
  · intro st pageContent now response parseSkeleton
    unfold generateAIAction
    rcases response with _ | content
    · rfl
    · by_cases hc : content = ""
      · simp [hc]
      · simp only [hc, if_neg, ite_false]
        rcases hp : parseSkeleton content with _ | skeleton
        · simp
        · simp
  · intro aiCallHistory now
    exact ⟨rfl, rfl⟩

/-- C7: `isStuckOnSameUrl` is true exactly when the history holds at
least 5 entries and the last 5 all record one same URL; under 5 entries
it is false, and any differing URL among the last 5 makes it false. -/
theorem stuck_iff_last_five_share_url (actionHistory : List HistoryEntry) :
    isStuckOnSameUrl actionHistory = true
      ↔ 5 ≤ actionHistory.length
        ∧ ∃ u, ∀ e ∈ actionHistory.drop (actionHistory.length - 5), e.url = u := by
  unfold isStuckOnSameUrl
  by_cases hlen : actionHistory.length < 5
  · simp only [if_pos hlen]
    constructor
    · intro h; cases h
    · rintro ⟨h5, -⟩; omega
  · simp only [if_neg hlen]
    rcases hrec : actionHistory.drop (actionHistory.length - 5) with _ | ⟨e0, rest⟩
    · exfalso
      have hl := congrArg List.length hrec
      simp only [List.length_drop, List.length_nil] at hl
      omega
    · simp only [List.map_cons]
      constructor
      · intro h
        refine ⟨by omega, e0.url, ?_⟩
        intro e he
        have hall := List.all_eq_true.mp h
        rcases List.mem_cons.mp he with rfl | hmem
        · rfl
        · have hm : e.url ∈ e0.url :: rest.map (fun a => a.url) :=
            List.mem_cons_of_mem _ (List.mem_map_of_mem _ hmem)
          simpa using hall _ hm
      · rintro ⟨-, u, hall⟩
        apply List.all_eq_true.mpr
        intro x hx
        have he0 : e0.url = u := hall e0 (List.mem_cons_self _ _)
        rcases List.mem_cons.mp hx with rfl | hmem
        · simp
        · rcases List.mem_map.mp hmem with ⟨e, hmem', rfl⟩
          have heu : e.url = u := hall e (List.mem_cons_of_mem _ hmem')
          simp [heu, he0]

/-! ## Domain scoping of the failed-element memory (C8) -/

/-- The session operations that can touch the failed-element memory or
the recorded domain: a context update from a navigation, a history
append, and a grounding resolution (the one code path that adds to the
memory). -/
inductive SessionEvent where
  | visit (url : String)
  | record (action : String) (params : Option ActionParams) (status : String)
      (errorMsg : Option String) (now : Int)
  | resolve (a : Action) (pageContent : Option PageContent)

/-- Interpret one event by the corresponding source method. -/
def stepEvent (parseHostname : String → Option String) (st : SessionState) :
    SessionEvent → SessionState
  | .visit url => updateContext parseHostname st url
  | .record action params status errorMsg now =>
    recordAction st action params status errorMsg now
  | .resolve a pageContent =>
    { st with failedElements :=
        (resolveActionParams st.agentContext st.failedElements st.actionHistory a pageContent).2 }

/-- Run a list of session events from a state. -/
def runEvents (parseHostname : String → Option String) (st : SessionState)
    (events : List SessionEvent) : SessionState :=
  events.foldl (stepEvent parseHostname) st

theorem mem_setAdd (s : List String) (x t : String) (h : t ∈ setAdd s x) :
    t ∈ s ∨ t = x := by
  unfold setAdd at h
  split at h
  · exact Or.inl h
  · rcases List.mem_append.mp h with h | h
    · exact Or.inl h
    · exact Or.inr (List.mem_singleton.mp h)

theorem self_mem_setAdd (s : List String) (x : String) : x ∈ setAdd s x := by
  unfold setAdd
  split
  · next h => simpa using h
  · exact List.mem_append_right s (List.mem_singleton.mpr rfl)

/-- The resolver's only effect on the failed-element set: it is either
unchanged or extended by one text. -/
theorem noteLastFailure_shape (failedElements : List String)
    (actionHistory : List HistoryEntry) :
    noteLastFailure failedElements actionHistory = failedElements
    ∨ ∃ t, noteLastFailure failedElements actionHistory = setAdd failedElements t := by
  unfold noteLastFailure
  rcases hl : actionHistory.getLast? with _ | last
  · exact Or.inl rfl
  · by_cases hs : last.status = "error"
    · simp only [if_pos hs]
      rcases hp : last.params with _ | p
      · simp only [hp]
        exact Or.inl trivial
      · simp only [hp]
        rcases htx : p.text with _ | t
        · simp only [htx]
          exact Or.inl trivial
        · simp only [htx]
          by_cases ht : t ≠ ""
          · exact Or.inr ⟨t, by simp [ht]⟩
          · simp only [if_neg ht]
            exact Or.inl trivial
    · simp only [if_neg hs]
      exact Or.inl trivial

/-- `_resolveActionParams` returns the failed-element set unchanged or
with exactly one text added. -/
theorem resolveActionParams_failed_shape (agentContext : Option AgentContext)
    (failedElements : List String) (actionHistory : List HistoryEntry)
    (a : Action) (pageContent : Option PageContent) :
    (resolveActionParams agentContext failedElements actionHistory a pageContent).2
      = failedElements
    ∨ ∃ t, (resolveActionParams agentContext failedElements actionHistory a pageContent).2
        = setAdd failedElements t := by
  obtain ⟨act, params⟩ := a
  by_cases h1 : act = "search"
  · left; simp [resolveActionParams, h1]
  · by_cases h2 : act = "click_result" ∨ act = "click_link"
    · rcases pageContent with _ | pc
      · left
        rcases h2 with h | h <;> subst h <;> simp [resolveActionParams]
      · rcases hels : pc.interactiveElements with _ | elements
        · left
          rcases h2 with h | h <;> subst h <;> simp [resolveActionParams, hels]
        · rw [resolveActionParams_click agentContext failedElements actionHistory params pc
            elements act h2 hels]
          simp only []
          rcases hbest : (elements.foldl
              (selectStep (scoreElement act (lowerStr (criteriaOf params))
                (queryTermsOf (lowerStr (criteriaOf params))) agentContext
                (noteLastFailure failedElements actionHistory))) (none, -1)).1 with _ | bestEl
          · simpa using noteLastFailure_shape failedElements actionHistory
          · simpa using noteLastFailure_shape failedElements actionHistory
    · by_cases h3 : act = "browse" ∨ act = "watch" ∨ act = "navigate"
      · left; simp [resolveActionParams, h1, h2, h3]
      · left; simp [resolveActionParams, h1, h2, h3]

theorem updateContext_domain_isSome (parseHostname : String → Option String)
    (st : SessionState) (url : String) (d : String)
    (h : st.currentContext.domain = some d) :
    ∃ d', (updateContext parseHostname st url).currentContext.domain = some d' := by
  unfold updateContext
  rcases parseHostname url with _ | hostname
  · exact ⟨d, h⟩
  · exact ⟨hostname, rfl⟩

/-- `t` entered the failed-element memory at step `i` of `events`, and at
that moment the recorded domain already equalled the domain recorded
after all of `events` — i.e. `t` was added while the current domain was
in effect. -/
def AddedUnderFinalDomain (parseHostname : String → Option String) (st0 : SessionState)
    (events : List SessionEvent) (t : String) : Prop :=
  ∃ i, i < events.length
    ∧ t ∉ (runEvents parseHostname st0 (events.take i)).failedElements
    ∧ t ∈ (runEvents parseHostname st0 (events.take (i + 1))).failedElements
    ∧ (runEvents parseHostname st0 (events.take (i + 1))).currentContext.domain
        = (runEvents parseHostname st0 events).currentContext.domain

theorem addedUnder_snoc (parseHostname : String → Option String) (st0 : SessionState)
    (es : List SessionEvent) (e : SessionEvent) (t : String)
    (hdom : (runEvents parseHostname st0 (es ++ [e])).currentContext.domain
      = (runEvents parseHostname st0 es).currentContext.domain)
    (h : AddedUnderFinalDomain parseHostname st0 es t) :
    AddedUnderFinalDomain parseHostname st0 (es ++ [e]) t := by
  obtain ⟨i, hi, h1, h2, h3⟩ := h
  refine ⟨i, by simp; omega, ?_, ?_, ?_⟩
  · rwa [List.take_append_of_le_length (by omega)]
  · rwa [List.take_append_of_le_length (by omega)]
  · rw [List.take_append_of_le_length (by omega), hdom]
    exact h3

/-- The domain-scoping invariant: starting from a state with a recorded
non-empty domain and an empty failed-element memory, and provided every
parsed hostname is non-empty (an empty hostname — e.g. `about:blank` —
is falsy in the source's clearing guard and would let entries leak
across a domain change), after any sequence of session operations the
recorded domain is still non-empty and every text in the failed-element
memory was added at a step whose recorded domain equals the final one. -/
theorem runEvents_added_under_current_domain (parseHostname : String → Option String)
    (st0 : SessionState) (d0 : String)
    (hne : ∀ url h, parseHostname url = some h → h ≠ "")
    (h0 : st0.currentContext.domain = some d0) (hd0 : d0 ≠ "")
    (hf : st0.failedElements = []) :
    ∀ events : List SessionEvent,
      (∃ d, (runEvents parseHostname st0 events).currentContext.domain = some d ∧ d ≠ "")
      ∧ ∀ t ∈ (runEvents parseHostname st0 events).failedElements,
          AddedUnderFinalDomain parseHostname st0 events t := by
  intro events
  induction events using List.reverseRecOn with
  | nil =>
    refine ⟨⟨d0, h0, hd0⟩, ?_⟩
    intro t ht
    rw [show runEvents parseHostname st0 [] = st0 from rfl, hf] at ht
    cases ht
  | append_singleton es e ih =>
    obtain ⟨⟨d, hd, hdne⟩, hinv⟩ := ih
    have hrun : runEvents parseHostname st0 (es ++ [e])
        = stepEvent parseHostname (runEvents parseHostname st0 es) e := by
      simp [runEvents]
    have htakeEs : (es ++ [e]).take es.length = es := by
      rw [List.take_append_of_le_length le_rfl, List.take_length]
    have htakeAll : (es ++ [e]).take (es.length + 1) = es ++ [e] :=
      List.take_of_length_le (by simp)
    cases e with
    | record action params status errorMsg now =>
      have hfail : (runEvents parseHostname st0 (es ++ [SessionEvent.record action params
            status errorMsg now])).failedElements
          = (runEvents parseHostname st0 es).failedElements := by
        rw [hrun]; rfl
      have hdom : (runEvents parseHostname st0 (es ++ [SessionEvent.record action params
            status errorMsg now])).currentContext.domain
          = (runEvents parseHostname st0 es).currentContext.domain := by
        rw [hrun]; rfl
      refine ⟨⟨d, by rw [hdom]; exact hd, hdne⟩, ?_⟩
      intro t ht
      rw [hfail] at ht
      exact addedUnder_snoc parseHostname st0 es _ t hdom (hinv t ht)
    | resolve a pageContent =>
      have hdom : (runEvents parseHostname st0
            (es ++ [SessionEvent.resolve a pageContent])).currentContext.domain
          = (runEvents parseHostname st0 es).currentContext.domain := by
        rw [hrun]; rfl
      refine ⟨⟨d, by rw [hdom]; exact hd, hdne⟩, ?_⟩
      intro t ht
      rcases resolveActionParams_failed_shape
          (runEvents parseHostname st0 es).agentContext
          (runEvents parseHostname st0 es).failedElements
          (runEvents parseHostname st0 es).actionHistory a pageContent with hsh | ⟨x, hsh⟩
      · have hfail : (runEvents parseHostname st0
              (es ++ [SessionEvent.resolve a pageContent])).failedElements
            = (runEvents parseHostname st0 es).failedElements := by
          rw [hrun]
          simpa [stepEvent] using hsh
        rw [hfail] at ht
        exact addedUnder_snoc parseHostname st0 es _ t hdom (hinv t ht)
      · have hfail : (runEvents parseHostname st0
              (es ++ [SessionEvent.resolve a pageContent])).failedElements
            = setAdd (runEvents parseHostname st0 es).failedElements x := by
          rw [hrun]
          simpa [stepEvent] using hsh
        by_cases hmem : t ∈ (runEvents parseHostname st0 es).failedElements
        · exact addedUnder_snoc parseHostname st0 es _ t hdom (hinv t hmem)
        · have htx : t = x := by
            rw [hfail] at ht
            rcases mem_setAdd _ _ _ ht with h | h
            · exact absurd h hmem
            · exact h
          refine ⟨es.length, by simp, ?_, ?_, ?_⟩
          · rwa [htakeEs]
          · rw [htakeAll, hfail, htx]
            exact self_mem_setAdd _ _
          · rw [htakeAll]
    | visit url =>
      rcases hph : parseHostname url with _ | host
      · have hfail : (runEvents parseHostname st0
              (es ++ [SessionEvent.visit url])).failedElements
            = (runEvents parseHostname st0 es).failedElements := by
          rw [hrun]
          simp [stepEvent, updateContext, hph]
        have hdom : (runEvents parseHostname st0
              (es ++ [SessionEvent.visit url])).currentContext.domain
            = (runEvents parseHostname st0 es).currentContext.domain := by
          rw [hrun]
          simp [stepEvent, updateContext, hph]
        refine ⟨⟨d, by rw [hdom]; exact hd, hdne⟩, ?_⟩
        intro t ht
        rw [hfail] at ht
        exact addedUnder_snoc parseHostname st0 es _ t hdom (hinv t ht)
      · by_cases hdh : d = host
        · have hfail : (runEvents parseHostname st0
                (es ++ [SessionEvent.visit url])).failedElements
              = (runEvents parseHostname st0 es).failedElements := by
            rw [hrun]
            simp [stepEvent, updateContext, hph, hd, hdh]
          have hdom : (runEvents parseHostname st0
                (es ++ [SessionEvent.visit url])).currentContext.domain
              = (runEvents parseHostname st0 es).currentContext.domain := by
            rw [hrun, hd, hdh]
            simp [stepEvent, updateContext, hph]
          refine ⟨⟨d, by rw [hdom]; exact hd, hdne⟩, ?_⟩
          intro t ht
          rw [hfail] at ht
          exact addedUnder_snoc parseHostname st0 es _ t hdom (hinv t ht)
        · have hfail : (runEvents parseHostname st0
                (es ++ [SessionEvent.visit url])).failedElements = [] := by
            rw [hrun]
            simp [stepEvent, updateContext, hph, hd, hdne, hdh]
          have hdomS : (runEvents parseHostname st0
                (es ++ [SessionEvent.visit url])).currentContext.domain = some host := by
            rw [hrun]
            simp [stepEvent, updateContext, hph]
          refine ⟨⟨host, hdomS, hne url host hph⟩, ?_⟩
          intro t ht
          rw [hfail] at ht
          cases ht

/-- Fixture for the C8 counterexample: a session whose recorded domain is
the empty string (what `new URL("about:blank").hostname` yields) and
which holds one failed element. -/
def emptyDomainSession : SessionState :=
  { new 10 none "qwen:latest" none with
    failedElements := ["x"]
    currentContext := { url := some "about:blank", pageType := "general_website",
                        domain := some "" } }

/-- C8 counterexample: with a recorded empty-string domain — falsy in the
source's clearing guard `this.currentContext.domain && ...` — applying
`updateContext` to a URL whose hostname `"a.com"` differs from the
recorded domain `""` does NOT clear the failed-element set: the entry
added under domain `""` survives under the new domain `"a.com"`,
refuting both the unconditional clearing and its added-under-the-current-
domain consequence. -/
theorem empty_domain_change_keeps_failed_memory :
    emptyDomainSession.currentContext.domain = some ""
    ∧ ("" : String) ≠ "a.com"
    ∧ (updateContext (fun _ => some "a.com") emptyDomainSession
        "https://a.com/").currentContext.domain = some "a.com"
    ∧ (updateContext (fun _ => some "a.com") emptyDomainSession
        "https://a.com/").failedElements = ["x"] := by
  decide

/-- C8 (amended): the failed-element memory is scoped to the current
NON-EMPTY domain.  First, `updateContext` on a URL whose parsed hostname
differs from a non-empty recorded domain clears the set (an empty-string
recorded domain is falsy in the clearing guard and skips it).  Second,
the resolver — the one writer — only ever adds single texts.  Third,
along any sequence of session operations starting from a state with a
non-empty recorded domain and an empty memory, and with every parsed
hostname non-empty, every text in the memory was added at a step whose
recorded domain equals the final one. -/
theorem failed_memory_scoped_to_domain (parseHostname : String → Option String) :
    (∀ (st : SessionState) (url host d : String),
        st.currentContext.domain = some d → d ≠ "" → parseHostname url = some host →
        d ≠ host →
        (updateContext parseHostname st url).failedElements = [])
    ∧ (∀ (agentContext : Option AgentContext) (failedElements : List String)
        (actionHistory : List HistoryEntry) (a : Action) (pageContent : Option PageContent),
        (resolveActionParams agentContext failedElements actionHistory a pageContent).2
          = failedElements
        ∨ ∃ t, (resolveActionParams agentContext failedElements actionHistory a pageContent).2
            = setAdd failedElements t)
    ∧ (∀ (st0 : SessionState) (d0 : String) (events : List SessionEvent),
        (∀ url h, parseHostname url = some h → h ≠ "") →
        st0.currentContext.domain = some d0 → d0 ≠ "" → st0.failedElements = [] →
        ∀ t ∈ (runEvents parseHostname st0 events).failedElements,
          AddedUnderFinalDomain parseHostname st0 events t) := by
  refine ⟨?_, resolveActionParams_failed_shape, ?_⟩
  · intro st url host d hd hdne hph hneq
    unfold updateContext
    rw [hph]
    simp [hd, hdne, hneq]
  · intro st0 d0 events hne h0 hd0 hf
    exact (runEvents_added_under_current_domain parseHostname st0 d0 hne h0 hd0 hf events).2

/-! ## Session end (C9) -/

/-- Fixture for the C9 counterexample: a session holding one failed
element, one queued action and a recorded context. -/
def sessionWithState : SessionState :=
  { new 10 none "qwen:latest" none with
    failedElements := ["Broken Link"]
    taskQueue := [browseAction 1]
    currentContext := { url := some "https://a.com/x", pageType := "general_website",
                        domain := some "a.com" } }

/-- C9 counterexample: `end()` does NOT reset all per-session mutable
state, and the failed-element memory and page context survive into the
next session.  In a session holding one failed element, after `end()` the
task queue, failed-element memory and context are still present, and
after a subsequent `start()` (no initial URL) the failed-element memory
and context are still those of the previous session. -/
theorem end_does_not_clear_all_state :
    ((«end» sessionWithState 600000).2.failedElements = ["Broken Link"]
      ∧ («end» sessionWithState 600000).2.taskQueue = [browseAction 1]
      ∧ («end» sessionWithState 600000).2.currentContext.domain = some "a.com")
    ∧ ((start (fun _ => none) («end» sessionWithState 600000).2 700000 none none
          (some [])).2.failedElements = ["Broken Link"]
      ∧ (start (fun _ => none) («end» sessionWithState 600000).2 700000 none none
          (some [])).2.currentContext.domain = some "a.com") := by
  decide

/-- C9 (amended): `end()` returns a final status carrying the session's
elapsed duration, completed-action count and final URL, and resets
`sessionId`, the start time and the action history — but leaves the task
queue, the failed-element memory and the page context in place (`start()`
re-seeds the history and the queue; the failed-element memory and the
context persist into the next session). -/
theorem end_returns_status_and_resets_core (st : SessionState) (now : Int) :
    («end» st now).1.elapsedMs = getElapsedTime st now
    ∧ («end» st now).1.actionsCompleted = st.actionHistory.length
    ∧ («end» st now).1.currentUrl = st.currentContext.url
    ∧ («end» st now).1.sessionId = st.sessionId
    ∧ («end» st now).1.pageType = st.currentContext.pageType
    ∧ («end» st now).2.sessionId = none
    ∧ («end» st now).2.startTime = none
    ∧ («end» st now).2.actionHistory = []
    ∧ («end» st now).2.taskQueue = st.taskQueue
    ∧ («end» st now).2.failedElements = st.failedElements
    ∧ («end» st now).2.currentContext = st.currentContext
    ∧ («end» st now).2.userGoal = st.userGoal
    ∧ («end» st now).2.aiCallHistory = st.aiCallHistory := by
  refine ⟨rfl, rfl, rfl, rfl, rfl, rfl, rfl, rfl, rfl, rfl, rfl, rfl, rfl⟩

end SessionManager
